import Mathlib

/-!
Verification of the uems-gateway request-correlation core (`src/Gateway.ts`,
namespace `GatewayMk2`) and two REST attachments (`EquipmentGatewayInterface`,
`UserGatewayInterface`).

The TypeScript is shallowly embedded as pure Lean functions over an explicit
gateway state.  Observable actions (broker publishes, HTTP responses,
completion-callback invocations, identifier releases, warning/error logs) are
recorded as an `Effect` list; debug-level log statements are not tracked.
JavaScript `number` values that appear as message ids, statuses and timestamps
are modelled as `Int`.  `Map<number, PendingRequest>` is modelled as an
association list with `Map.set` / `Map.get` / `Map.delete` semantics.

Two collaborators of `Gateway.ts` live outside the provided sources
(`MessageUtilities`, `EntityResolver`); the operations of theirs that the
gateway calls (`has`, `identifierConsumed`, `wrapInFailure`,
`resolver.intercept`, `resolver.consume`) are modelled from the spec where
noted on the definitions below.
-/

namespace GatewayMk2

/-- A JSON value; the wire encoding is UTF-8 JSON. -/
inductive JsonValue where
  | null
  | bool (b : Bool)
  | num (n : Int)
  | str (s : String)
  | arr (elems : List JsonValue)
  | obj (fields : List (String × JsonValue))

/-- Field lookup on a JSON object field list (first binding wins, as in a
JavaScript object literal / `Map`). -/
def getField (fields : List (String × JsonValue)) (k : String) : Option JsonValue :=
  (fields.find? (fun p => p.1 == k)).map Prod.snd

/-- Modelled from the spec: `MessageUtilities.has(object, key)` (the
`MessageUtilities` module is not among the provided sources).  Spec 4.5:
"Decode as keyed structure; reject if it is not an object" — membership of a
key, false on any non-object value. -/
def hasKey (j : JsonValue) (k : String) : Bool :=
  match j with
  | .obj fields => fields.any (fun p => p.1 == k)
  | _ => false

/-- `MessageUtilities.has(json, k) && typeof json.k === 'number'`: the numeric
field `k` of `j`, when present. -/
def numField (j : JsonValue) (k : String) : Option Int :=
  match j with
  | .obj fields =>
    match getField fields k with
    | some (.num n) => some n
    | _ => none
  | _ => none

/-- `PendingRequest` record of `Gateway.ts` (responder handle, completion
callback handle and validator handle are abstract, identified by numbers). -/
structure PendingRequest where
  uid : Int
  response : Nat
  callback : Nat
  timestamp : Int
  additionalValidator : Option Nat
deriving DecidableEq, Repr

/-- The request table `outstandingRequests : Map<number, PendingRequest>`,
as an association list. -/
abbrev RequestTable := List (Int × PendingRequest)

/-- `Map.get`. -/
def tableGet (t : RequestTable) (k : Int) : Option PendingRequest :=
  (List.find? (fun p => p.1 == k) t).map Prod.snd

/-- `Map.delete`. -/
def tableDelete (t : RequestTable) (k : Int) : RequestTable :=
  List.filter (fun p => !(p.1 == k)) t

/-- `Map.set`: unconditionally binds `k` to `v`, replacing any previous
binding. -/
def tableSet (t : RequestTable) (k : Int) (v : PendingRequest) : RequestTable :=
  (k, v) :: tableDelete t k

/-- `Map.has`. -/
def tableMem (t : RequestTable) (k : Int) : Bool :=
  List.any t (fun p => p.1 == k)

/-- Outgoing request message `{ msg_id: number, [key: string]: any }`: the
typed `msg_id` plus the remaining fields. -/
structure RequestMessage where
  msg_id : Int
  fields : List (String × JsonValue)

/-- Structured error bodies (`ErrorCodes`, modelled from the spec:
failure envelopes carry `{message, code}`). -/
structure ErrorBody where
  code : String
  message : String
deriving DecidableEq, Repr

/-- Modelled from the spec: `ErrorCodes.SERVICE_TIMEOUT` (the `ErrorCodes`
module is not among the provided sources; spec 4.6 names the code). -/
def SERVICE_TIMEOUT : ErrorBody :=
  { code := "SERVICE_TIMEOUT", message := "service timeout" }

/-- HTTP response bodies the core writes. -/
inductive ResponseBody where
  | failure (e : ErrorBody)
deriving DecidableEq, Repr

/-- Modelled from the spec: `MessageUtilities.wrapInFailure` produces the
failure envelope carrying the error body. -/
def wrapInFailure (e : ErrorBody) : ResponseBody := .failure e

/-- `constants.HTTP_STATUS_GATEWAY_TIMEOUT`. -/
def HTTP_STATUS_GATEWAY_TIMEOUT : Nat := 504

/-- Warn/error level log statements of `Gateway.ts` (debug logs untracked). -/
inductive LogEvent where
  | nullMessage
  | missingId
  | missingStatus
  | unmatchedRequest
  | validatorRejected
  | validatorErrored
deriving DecidableEq, Repr

/-- Observable actions of the gateway core. -/
inductive Effect where
  /-- `outstandingRequests.set(message.msg_id, record)` in `sendRequest`. -/
  | insertedRecord (key : Int) (rec : PendingRequest)
  /-- `sendChannel.publish(REQUEST_EXCHANGE, key, ...)`. -/
  | published (key : String) (message : RequestMessage)
  /-- `response.status(st).json(body)`. -/
  | httpResponded (response : Nat) (status : Nat) (body : ResponseBody)
  /-- `request.callback(request.response, request.timestamp, json, json.status)`
  for the record taken from the table at `key`. -/
  | calledBack (key : Int) (rec : PendingRequest) (reply : JsonValue) (status : Int)
  /-- `MessageUtilities.identifierConsumed(id)` — modelled from the spec:
  releases the id from the allocated set. -/
  | releasedId (id : Int)
  /-- `resolver.consume(json)`. -/
  | resolverConsumed (reply : JsonValue)
  /-- `_l.warn` / `_l.error`. -/
  | logged (e : LogEvent)

/-- Gateway state: the request table, the identifier allocator's in-use set
(modelled from the spec: `MessageUtilities` tracks outstanding ids and
`identifierConsumed` releases one), the resolver's intercept registry
(modelled from the spec: `resolver.intercept(id)` is true iff the resolver
awaits id), and which of `sendChannel` / `_resolver` have been configured. -/
structure GatewayState where
  outstandingRequests : RequestTable
  allocated : List Int
  intercepts : List Int
  sendChannelConfigured : Bool
  resolverConfigured : Bool
deriving DecidableEq, Repr

/-- Errors thrown by the gateway core. -/
inductive GatewayError where
  /-- `new Error('Gateway is not configured, make sure you have called configure')`. -/
  | notConfigured
  /-- `new Error('Gateway not configured properly, no resolver')`. -/
  | noResolver
  /-- The `SyntaxError` that `JSON.parse` raises on undecodable input; it is
  not caught inside `handleRawIncoming`. -/
  | jsonSyntaxError
deriving DecidableEq, Repr

/-- Outcome of one gateway operation: the state as left behind (mutations made
before a throw persist), the recorded effects, and either a return value or a
thrown error. -/
structure RunResult (α : Type) where
  state : GatewayState
  effects : List Effect
  result : Except GatewayError α

/-- One inbound delivery handed to the consume handler: `null`, a payload
whose content fails `JSON.parse`, or a decoded JSON value. -/
inductive RawPayload where
  | nullMsg
  | undecodable
  | decoded (j : JsonValue)

/-- Behaviour of a validator handle on a reply: the promise returned by
`validator.validate(json)` resolves true, resolves false, or rejects. -/
inductive ValidatorOutcome where
  | accepted
  | rejected
  | threw
deriving DecidableEq, Repr

/-- Environment giving each validator handle its behaviour on each reply. -/
def ValidatorEnv := Nat → JsonValue → ValidatorOutcome

/-- `GatewayMessageHandler.publish(key, data)` (Gateway.ts lines 292-301):
throws when the send channel is not configured, otherwise publishes and
returns the channel's acceptance. -/
def publish (s : GatewayState) (key : String) (data : RequestMessage) :
    RunResult Bool :=
  if s.sendChannelConfigured then
    { state := s, effects := [.published key data], result := .ok true }
  else
    { state := s, effects := [], result := .error .notConfigured }

/-- `GatewayMessageHandler.sendRequest` (Gateway.ts lines 303-319): stores the
pending record under `message.msg_id` via `Map.set`, then publishes.  `now` is
`new Date().getTime()` at the call. -/
def sendRequest (s : GatewayState) (key : String) (message : RequestMessage)
    (response : Nat) (callback : Nat) (validator : Option Nat) (now : Int) :
    RunResult Bool :=
  let record : PendingRequest :=
    { response := response
      callback := callback
      uid := message.msg_id
      timestamp := now
      additionalValidator := validator }
  let s1 : GatewayState :=
    { s with outstandingRequests := tableSet s.outstandingRequests message.msg_id record }
  let r := publish s1 key message
  { state := r.state
    effects := .insertedRecord message.msg_id record :: r.effects
    result := r.result }

/-- Timeout deadline of the terminator: `now - entry.timestamp > 15000`. -/
def sweepDeadlineMs : Int := 15000

/-- Cadence of `setInterval(this.terminateTimedOut, 2000)` in the constructor
(Gateway.ts line 125). -/
def terminatorIntervalMs : Nat := 2000

/-- The effects of terminating one expired entry: respond 504 with the
`SERVICE_TIMEOUT` failure envelope, then release its message id. -/
def terminateEffects (entry : PendingRequest) : List Effect :=
  [ .httpResponded entry.response HTTP_STATUS_GATEWAY_TIMEOUT
      (wrapInFailure SERVICE_TIMEOUT),
    .releasedId entry.uid ]

/-- `GatewayMessageHandler.terminateTimedOut` (Gateway.ts lines 134-153): for
every entry older than 15000 ms it responds 504 `SERVICE_TIMEOUT`, deletes the
entry and releases its id; younger entries are untouched. -/
def terminateTimedOut (now : Int) (s : GatewayState) :
    GatewayState × List Effect :=
  let expired := List.filter
    (fun p => decide (now - (Prod.snd p).timestamp > sweepDeadlineMs))
    s.outstandingRequests
  let remaining := List.filter
    (fun p => !(decide (now - (Prod.snd p).timestamp > sweepDeadlineMs)))
    s.outstandingRequests
  let freed := List.map (fun p => (Prod.snd p).uid) expired
  ( { s with
        outstandingRequests := remaining
        allocated := List.filter (fun i => !(List.any freed (fun u => u == i))) s.allocated }
  , List.foldr (fun p acc => terminateEffects (Prod.snd p) ++ acc) [] expired )

/-- `GatewayMessageHandler.handleRawIncoming` (Gateway.ts lines 232-290).
Throws when no resolver is configured; ignores `null` deliveries with a warn;
propagates the `JSON.parse` exception on undecodable content; drops messages
without numeric `msg_id` / `status` with a warn; routes intercepted ids to the
resolver after releasing them; takes the matching pending record, removing it
from the table before running the validator or callback; drops unmatched
replies with a warn.  `env` supplies validator behaviour. -/
def handleRawIncoming (env : ValidatorEnv) (s : GatewayState)
    (payload : RawPayload) : RunResult Unit :=
  if s.resolverConfigured = false then
    { state := s, effects := [], result := .error .noResolver }
  else
    match payload with
    | .nullMsg => { state := s, effects := [.logged .nullMessage], result := .ok () }
    | .undecodable => { state := s, effects := [], result := .error .jsonSyntaxError }
    | .decoded json =>
      match numField json "msg_id" with
      | none => { state := s, effects := [.logged .missingId], result := .ok () }
      | some msgId =>
        match numField json "status" with
        | none => { state := s, effects := [.logged .missingStatus], result := .ok () }
        | some status =>
          if List.any s.intercepts (fun i => i == msgId) then
            { state :=
                { s with
                    allocated := List.filter (fun i => !(i == msgId)) s.allocated
                    intercepts := List.filter (fun i => !(i == msgId)) s.intercepts }
              effects := [.releasedId msgId, .resolverConsumed json]
              result := .ok () }
          else
            match tableGet s.outstandingRequests msgId with
            | none =>
              { state := s, effects := [.logged .unmatchedRequest], result := .ok () }
            | some request =>
              let s1 : GatewayState :=
                { s with outstandingRequests := tableDelete s.outstandingRequests msgId }
              match request.additionalValidator with
              | some v =>
                match env v json with
                | .accepted =>
                  { state := s1
                    effects := [.calledBack msgId request json status]
                    result := .ok () }
                | .rejected =>
                  { state := s1
                    effects := [.logged .validatorRejected]
                    result := .ok () }
                | .threw =>
                  { state := s1
                    effects := [.logged .validatorErrored]
                    result := .ok () }
              | none =>
                { state := s1
                  effects := [.calledBack msgId request json status]
                  result := .ok () }

/-- Events the reply path can observe: an inbound delivery or a terminator
sweep at some wall-clock time. -/
inductive GatewayEvent where
  | incoming (payload : RawPayload)
  | sweep (now : Int)

/-- One event step (a thrown error aborts the handler; the state it left
behind persists). -/
def stepEvent (env : ValidatorEnv) (s : GatewayState) (ev : GatewayEvent) :
    GatewayState × List Effect :=
  match ev with
  | .incoming p =>
    let r := handleRawIncoming env s p
    (r.state, r.effects)
  | .sweep now => terminateTimedOut now s

/-- Run a sequence of events, concatenating the effects. -/
def runEvents (env : ValidatorEnv) (s : GatewayState) :
    List GatewayEvent → GatewayState × List Effect
  | [] => (s, [])
  | ev :: rest =>
    let r1 := stepEvent env s ev
    let r2 := runEvents env r1.1 rest
    (r2.1, r1.2 ++ r2.2)

/-- Is this effect a completion-callback invocation for the record keyed `uid`? -/
def isFireFor (uid : Int) : Effect → Bool
  | .calledBack k _ _ _ => k == uid
  | _ => false

/-- Number of completion-callback invocations for key `uid` in an effect list. -/
def firesFor (uid : Int) (effs : List Effect) : Nat :=
  (List.filter (isFireFor uid) effs).length

/-- 1 when the table holds a pending record keyed `uid`, else 0. -/
def pendingCount (uid : Int) (t : RequestTable) : Nat :=
  if tableMem t uid then 1 else 0

end GatewayMk2

namespace Attachments

open GatewayMk2

/-- `req.uemsUser` of the express request. -/
structure UemsUser where
  userID : String

/-- The parts of an express request the GET-one handlers read: path
parameters and the authenticated user. -/
structure RequestCtx where
  params : List (String × String)
  uemsUser : UemsUser

/-- `req.params.id` (`MessageUtilities.has(req.params, k)` is key presence). -/
def lookupParam (ps : List (String × String)) (k : String) : Option String :=
  (ps.find? (fun p => p.1 == k)).map Prod.snd

/-- Observable actions of a REST handler. -/
inductive HandlerEffect where
  /-- `res.status(400).json(wrapInFailure({message, code}))`. -/
  | respondedBadRequest (status : Nat) (code : String)
  /-- `send(key, outgoingMessage, res, ...)`. -/
  | sent (key : String) (message : RequestMessage)

/-- `EquipmentGatewayInterface.EQUIPMENT_READ_KEY`. -/
def EQUIPMENT_READ_KEY : String := "equipment.details.get"

/-- `UserGatewayInterface.USER_READ_KEY`. -/
def USER_READ_KEY : String := "user.details.get"

/-- `EquipmentGatewayInterface.getEquipmentHandler` (unnamed attachment
source, lines 137-167): builds the READ message, responds 400 when the path
parameter is missing, otherwise copies `req.params.id` into the outgoing
message before sending to `equipment.details.get`.  `freshId` stands for
`MessageUtilities.generateMessageIdentifier()`. -/
def getEquipmentHandler (ctx : RequestCtx) (freshId : Int) : List HandlerEffect :=
  let outgoingMessage : RequestMessage :=
    ⟨freshId, [("msg_intention", .str "READ"), ("status", .num 0),
               ("userID", .str ctx.uemsUser.userID)]⟩
  match lookupParam ctx.params "id" with
  | none => [.respondedBadRequest 400 "BAD_REQUEST_MISSING_PARAM"]
  | some i =>
    [.sent EQUIPMENT_READ_KEY
      ⟨outgoingMessage.msg_id, outgoingMessage.fields ++ [("id", .str i)]⟩]

/-- `UserGatewayInterface.getUserHandler` (UserGatewayInterface.ts lines
115-141): responds 400 when the path parameter is missing, otherwise builds
the READ message — without ever copying `req.params.id` into it — and sends
it to `user.details.get`. -/
def getUserHandler (ctx : RequestCtx) (freshId : Int) : List HandlerEffect :=
  match lookupParam ctx.params "id" with
  | none => [.respondedBadRequest 400 "BAD_REQUEST_MISSING_PARAM"]
  | some _ =>
    [.sent USER_READ_KEY
      ⟨freshId, [("msg_intention", .str "READ"), ("status", .num 0),
                 ("userID", .str ctx.uemsUser.userID)]⟩]

end Attachments


namespace GatewayMk2

/-! ### Lemmas about the request-table operations -/

theorem tableGet_mem {t : RequestTable} {k : Int} {v : PendingRequest}
    (h : tableGet t k = some v) : (k, v) ∈ t := by
  unfold tableGet at h
  rcases Option.map_eq_some'.mp h with ⟨p, hf, hv⟩
  have hmem := List.mem_of_find?_eq_some hf
  have hpred := List.find?_some hf
  have hk : p.1 = k := by simpa using hpred
  have hp : p = (k, v) := by
    cases p with
    | mk a b => simp_all
  rwa [hp] at hmem

theorem tableMem_of_get_some {t : RequestTable} {k : Int} {v : PendingRequest}
    (h : tableGet t k = some v) : tableMem t k = true := by
  have hm := tableGet_mem h
  unfold tableMem
  rw [List.any_eq_true]
  exact ⟨(k, v), hm, by simp⟩

theorem tableGet_none_of_not_mem {t : RequestTable} {k : Int}
    (h : tableMem t k = false) : tableGet t k = none := by
  unfold tableMem at h
  unfold tableGet
  have hf : List.find? (fun p => p.1 == k) t = none := by
    rw [List.find?_eq_none]
    intro p hp hpk
    have : List.any t (fun p => p.1 == k) = true := List.any_eq_true.mpr ⟨p, hp, hpk⟩
    rw [h] at this
    exact Bool.false_ne_true this
  rw [hf]
  rfl

theorem tableMem_delete_self (t : RequestTable) (k : Int) :
    tableMem (tableDelete t k) k = false := by
  unfold tableMem tableDelete
  rw [Bool.eq_false_iff]
  intro hany
  rcases List.any_eq_true.mp hany with ⟨p, hp, hpk⟩
  rcases List.mem_filter.mp hp with ⟨-, hkeep⟩
  simp only [Bool.not_eq_true'] at hkeep
  rw [hkeep] at hpk
  exact Bool.false_ne_true hpk

theorem tableMem_of_filter {t : RequestTable} {q : Int × PendingRequest → Bool} {u : Int}
    (h : tableMem (List.filter q t) u = true) : tableMem t u = true := by
  unfold tableMem at h ⊢
  rcases List.any_eq_true.mp h with ⟨p, hp, hpk⟩
  exact List.any_eq_true.mpr ⟨p, (List.mem_filter.mp hp).1, hpk⟩

theorem tableMem_of_delete {t : RequestTable} {k u : Int}
    (h : tableMem (tableDelete t k) u = true) : tableMem t u = true :=
  tableMem_of_filter h

/-- Under unique keys, a binding in the list is the binding `tableGet` finds. -/
theorem tableGet_of_mem_nodup {t : RequestTable} {k : Int} {v : PendingRequest}
    (hnd : (t.map Prod.fst).Nodup) (hm : (k, v) ∈ t) : tableGet t k = some v := by
  induction t with
  | nil => cases hm
  | cons p rest ih =>
    rcases List.mem_cons.mp hm with heq | htail
    · subst heq
      unfold tableGet
      simp [List.find?]
    · have hnd' : (rest.map Prod.fst).Nodup := (List.nodup_cons.mp hnd).2
      have hne : p.1 ≠ k := by
        intro hk
        have : k ∈ rest.map Prod.fst := List.mem_map.mpr ⟨(k, v), htail, rfl⟩
        rw [← hk] at this
        exact (List.nodup_cons.mp hnd).1 this
      have := ih hnd' htail
      unfold tableGet at this ⊢
      simp only [List.find?]
      have hb : (p.1 == k) = false := by
        simp [hne]
      rw [hb]
      exact this

/-! ### Lemmas about effect counting -/

theorem firesFor_append (uid : Int) (a b : List Effect) :
    firesFor uid (a ++ b) = firesFor uid a + firesFor uid b := by
  unfold firesFor
  rw [List.filter_append, List.length_append]

theorem firesFor_nil (uid : Int) : firesFor uid [] = 0 := rfl

theorem firesFor_terminateEffects (uid : Int) (entry : PendingRequest) :
    firesFor uid (terminateEffects entry) = 0 := rfl

theorem firesFor_sweepFold (uid : Int) (l : List (Int × PendingRequest)) :
    firesFor uid (List.foldr (fun p acc => terminateEffects (Prod.snd p) ++ acc) [] l) = 0 := by
  induction l with
  | nil => rfl
  | cons p rest ih =>
    simp only [List.foldr]
    rw [firesFor_append, ih, firesFor_terminateEffects]

theorem mem_sweepFold {l : List (Int × PendingRequest)} {q : Int × PendingRequest}
    (hq : q ∈ l) {e : Effect} (he : e ∈ terminateEffects (Prod.snd q)) :
    e ∈ List.foldr (fun p acc => terminateEffects (Prod.snd p) ++ acc) [] l := by
  induction l with
  | nil => cases hq
  | cons p rest ih =>
    simp only [List.foldr]
    rcases List.mem_cons.mp hq with heq | htail
    · subst heq; exact List.mem_append_left _ he
    · exact List.mem_append_right _ (ih htail)

end GatewayMk2

namespace GatewayMk2

theorem pendingCount_le_one (uid : Int) (t : RequestTable) :
    pendingCount uid t ≤ 1 := by
  unfold pendingCount
  split <;> omega

theorem pendingCount_delete_self (uid : Int) (t : RequestTable) :
    pendingCount uid (tableDelete t uid) = 0 := by
  unfold pendingCount
  rw [tableMem_delete_self]
  rfl

theorem pendingCount_delete_le (uid k : Int) (t : RequestTable) :
    pendingCount uid (tableDelete t k) ≤ pendingCount uid t := by
  unfold pendingCount
  by_cases h : tableMem (tableDelete t k) uid = true
  · rw [h, tableMem_of_delete h]
  · rw [Bool.not_eq_true] at h
    rw [h]
    simp

theorem pendingCount_filter_le (uid : Int) (q : Int × PendingRequest → Bool)
    (t : RequestTable) : pendingCount uid (List.filter q t) ≤ pendingCount uid t := by
  unfold pendingCount
  by_cases h : tableMem (List.filter q t) uid = true
  · rw [h, tableMem_of_filter h]
  · rw [Bool.not_eq_true] at h
    rw [h]
    simp

theorem pendingCount_pos_of_get {uid : Int} {t : RequestTable} {v : PendingRequest}
    (h : tableGet t uid = some v) : pendingCount uid t = 1 := by
  unfold pendingCount
  rw [tableMem_of_get_some h]
  simp

/-- Core accounting step for the reply demultiplexer: the number of
completion-callback firings for `uid` plus the number of surviving records for
`uid` never exceeds the number of records for `uid` beforehand — the record is
taken out of the table before (and as the only way of) firing its callback. -/
theorem handle_fires_bound (env : ValidatorEnv) (s : GatewayState)
    (payload : RawPayload) (uid : Int) :
    firesFor uid (handleRawIncoming env s payload).effects +
      pendingCount uid (handleRawIncoming env s payload).state.outstandingRequests ≤
      pendingCount uid s.outstandingRequests := by
  by_cases hres : s.resolverConfigured = false
  · simp [handleRawIncoming, hres, firesFor]
  · cases payload with
    | nullMsg => simp [handleRawIncoming, hres, firesFor, isFireFor]
    | undecodable => simp [handleRawIncoming, hres, firesFor]
    | decoded json =>
      cases hm : numField json "msg_id" with
      | none => simp [handleRawIncoming, hres, hm, firesFor, isFireFor]
      | some msgId =>
        cases hs : numField json "status" with
        | none => simp [handleRawIncoming, hres, hm, hs, firesFor, isFireFor]
        | some st =>
          by_cases hint : List.any s.intercepts (fun i => i == msgId) = true
          · simp [handleRawIncoming, hres, hm, hs, hint, firesFor, isFireFor]
          · rw [Bool.not_eq_true] at hint
            cases hg : tableGet s.outstandingRequests msgId with
            | none => simp [handleRawIncoming, hres, hm, hs, hint, hg, firesFor, isFireFor]
            | some request =>
              have hpos := pendingCount_pos_of_get hg
              have hdel := pendingCount_delete_le uid msgId s.outstandingRequests
              have hdelself := pendingCount_delete_self msgId s.outstandingRequests
              have hfire : ∀ r : PendingRequest, ∀ j : JsonValue,
                  firesFor uid [Effect.calledBack msgId r j st] +
                    pendingCount uid (tableDelete s.outstandingRequests msgId) ≤
                    pendingCount uid s.outstandingRequests := by
                intro r j
                by_cases he : msgId = uid
                · subst he
                  rw [hdelself, hpos]
                  simp [firesFor, isFireFor]
                · have : firesFor uid [Effect.calledBack msgId r j st] = 0 := by
                    simp [firesFor, isFireFor, he]
                  rw [this]
                  omega
              cases hv : request.additionalValidator with
              | none =>
                have := hfire request json
                simpa [handleRawIncoming, hres, hm, hs, hint, hg, hv] using this
              | some v =>
                cases henv : env v json with
                | accepted =>
                  have := hfire request json
                  simpa [handleRawIncoming, hres, hm, hs, hint, hg, hv, henv] using this
                | rejected =>
                  have h0 : firesFor uid [Effect.logged LogEvent.validatorRejected] = 0 := by
                    simp [firesFor, isFireFor]
                  have := pendingCount_delete_le uid msgId s.outstandingRequests
                  simpa [handleRawIncoming, hres, hm, hs, hint, hg, hv, henv, h0] using this
                | threw =>
                  have h0 : firesFor uid [Effect.logged LogEvent.validatorErrored] = 0 := by
                    simp [firesFor, isFireFor]
                  have := pendingCount_delete_le uid msgId s.outstandingRequests
                  simpa [handleRawIncoming, hres, hm, hs, hint, hg, hv, henv, h0] using this

/-- The same accounting for one event step (incoming frame or sweep). -/
theorem step_fires_bound (env : ValidatorEnv) (s : GatewayState)
    (ev : GatewayEvent) (uid : Int) :
    firesFor uid (stepEvent env s ev).2 +
      pendingCount uid (stepEvent env s ev).1.outstandingRequests ≤
      pendingCount uid s.outstandingRequests := by
  cases ev with
  | incoming p => exact handle_fires_bound env s p uid
  | sweep now =>
    simp only [stepEvent, terminateTimedOut]
    rw [firesFor_sweepFold]
    simpa using pendingCount_filter_le uid _ s.outstandingRequests

/-- The accounting extends to arbitrary event sequences. -/
theorem run_fires_bound (env : ValidatorEnv) (uid : Int) :
    ∀ (events : List GatewayEvent) (s : GatewayState),
      firesFor uid (runEvents env s events).2 +
        pendingCount uid (runEvents env s events).1.outstandingRequests ≤
        pendingCount uid s.outstandingRequests := by
  intro events
  induction events with
  | nil => intro s; simp [runEvents, firesFor]
  | cons ev rest ih =>
    intro s
    have h1 := step_fires_bound env s ev uid
    have h2 := ih (stepEvent env s ev).1
    simp only [runEvents]
    rw [firesFor_append]
    omega

end GatewayMk2

namespace GatewayMk2

/-- Claim C1: for every call to `sendRequest(key, message, response, callback,
validator)`, the pending record `{uid = message.msg_id, response, callback,
timestamp = now, validator}` is inserted into the outstanding-request table
strictly before the message is published to the broker: the publish effect
exists and every publish effect is preceded by the insertion effect. -/
theorem sendRequest_inserts_before_publish (s : GatewayState) (key : String)
    (message : RequestMessage) (response callback : Nat) (validator : Option Nat)
    (now : Int) (h : s.sendChannelConfigured = true) :
    (∃ j, ((sendRequest s key message response callback validator now).effects).get? j =
      some (.published key message)) ∧
    (∀ j, ((sendRequest s key message response callback validator now).effects).get? j =
        some (.published key message) →
      ∃ i, i < j ∧
        ((sendRequest s key message response callback validator now).effects).get? i =
          some (.insertedRecord message.msg_id
            { uid := message.msg_id, response := response, callback := callback,
              timestamp := now, additionalValidator := validator })) := by
  have heff : (sendRequest s key message response callback validator now).effects =
      [.insertedRecord message.msg_id
        { uid := message.msg_id, response := response, callback := callback,
          timestamp := now, additionalValidator := validator },
       .published key message] := by
    simp [sendRequest, publish, h]
  constructor
  · exact ⟨1, by rw [heff]; rfl⟩
  · intro j hj
    rw [heff] at hj
    match j with
    | 0 =>
      have hj0 : some (Effect.insertedRecord message.msg_id
          { uid := message.msg_id, response := response, callback := callback,
            timestamp := now, additionalValidator := validator }) =
          some (Effect.published key message) := hj
      exact absurd (Option.some.inj hj0) (by intro hc; exact Effect.noConfusion hc)
    | 1 => exact ⟨0, by omega, by rw [heff]; rfl⟩
    | (n + 2) =>
      have hj2 : (none : Option Effect) = some (Effect.published key message) := hj
      exact absurd hj2 (by intro hc; exact Option.noConfusion hc)

/-- Witness for C1 at a concrete configured state. -/
theorem sendRequest_inserts_before_publish_witness :
    (∃ j, ((sendRequest ⟨[], [], [], true, true⟩ "user.details.get" ⟨5, []⟩ 7 8 none
        100).effects).get? j = some (.published "user.details.get" ⟨5, []⟩)) ∧
    (∀ j, ((sendRequest ⟨[], [], [], true, true⟩ "user.details.get" ⟨5, []⟩ 7 8 none
        100).effects).get? j = some (.published "user.details.get" ⟨5, []⟩) →
      ∃ i, i < j ∧
        ((sendRequest ⟨[], [], [], true, true⟩ "user.details.get" ⟨5, []⟩ 7 8 none
          100).effects).get? i =
          some (.insertedRecord (5 : Int)
            { uid := 5, response := 7, callback := 8,
              timestamp := 100, additionalValidator := none })) :=
  sendRequest_inserts_before_publish ⟨[], [], [], true, true⟩ "user.details.get"
    ⟨5, []⟩ 7 8 none 100 rfl

/-- Claim C3: for every pending record (identified by its table key `uid`) the
completion callback is invoked at most once, over any sequence of incoming
replies — duplicates of the same msg id included — interleaved with
terminator sweeps. -/
theorem callback_at_most_once (env : ValidatorEnv) (s : GatewayState)
    (events : List GatewayEvent) (uid : Int) :
    firesFor uid (runEvents env s events).2 ≤ 1 := by
  have h := run_fires_bound env uid events s
  have h2 := pendingCount_le_one uid s.outstandingRequests
  omega

/-- Claim C10: before configuration, `publish` (and so `sendRequest`) throws
the not-configured error rather than returning false, and `handleRawIncoming`
throws the no-resolver error rather than dropping the frame. -/
theorem unconfigured_operations_throw (s : GatewayState) (key : String)
    (message : RequestMessage) (response callback : Nat) (validator : Option Nat)
    (now : Int) (env : ValidatorEnv) (payload : RawPayload) :
    (s.sendChannelConfigured = false →
      (publish s key message).result = .error .notConfigured ∧
      (publish s key message).effects = [] ∧
      (sendRequest s key message response callback validator now).result =
        .error .notConfigured) ∧
    (s.resolverConfigured = false →
      (handleRawIncoming env s payload).result = .error .noResolver ∧
      (handleRawIncoming env s payload).effects = []) := by
  constructor
  · intro h
    refine ⟨?_, ?_, ?_⟩ <;> simp [publish, sendRequest, h]
  · intro h
    exact ⟨by simp [handleRawIncoming, h], by simp [handleRawIncoming, h]⟩

/-- Witness for C10 at a concrete unconfigured state. -/
theorem unconfigured_operations_throw_witness :
    ((publish ⟨[], [], [], false, false⟩ "user.details.get" ⟨5, []⟩).result =
        .error .notConfigured ∧
      (publish ⟨[], [], [], false, false⟩ "user.details.get" ⟨5, []⟩).effects = [] ∧
      (sendRequest ⟨[], [], [], false, false⟩ "user.details.get" ⟨5, []⟩ 7 8 none
        100).result = .error .notConfigured) ∧
    ((handleRawIncoming (fun _ _ => .accepted) ⟨[], [], [], false, false⟩
        .nullMsg).result = .error .noResolver ∧
      (handleRawIncoming (fun _ _ => .accepted) ⟨[], [], [], false, false⟩
        .nullMsg).effects = []) :=
  ⟨(unconfigured_operations_throw ⟨[], [], [], false, false⟩ "user.details.get"
      ⟨5, []⟩ 7 8 none 100 (fun _ _ => .accepted) .nullMsg).1 rfl,
   (unconfigured_operations_throw ⟨[], [], [], false, false⟩ "user.details.get"
      ⟨5, []⟩ 7 8 none 100 (fun _ _ => .accepted) .nullMsg).2 rfl⟩

end GatewayMk2

namespace GatewayMk2

/-- Claim C2: the terminator is scheduled at a 2000 ms cadence and its sweep at
time `now` gives every record older than 15000 ms an HTTP 504 with the
structured failure body carrying SERVICE_TIMEOUT, removes it from the table
and releases its id; records at or under the deadline stay in the table
unchanged. -/
theorem terminator_sweep_spec (now : Int) (s : GatewayState) (k : Int)
    (entry : PendingRequest) (hmem : (k, entry) ∈ s.outstandingRequests) :
    terminatorIntervalMs = 2000 ∧ sweepDeadlineMs = 15000 ∧
    (now - entry.timestamp > 15000 →
      (k, entry) ∉ (terminateTimedOut now s).1.outstandingRequests ∧
      Effect.httpResponded entry.response 504 (wrapInFailure SERVICE_TIMEOUT) ∈
        (terminateTimedOut now s).2 ∧
      Effect.releasedId entry.uid ∈ (terminateTimedOut now s).2 ∧
      entry.uid ∉ (terminateTimedOut now s).1.allocated) ∧
    (¬ now - entry.timestamp > 15000 →
      (k, entry) ∈ (terminateTimedOut now s).1.outstandingRequests) := by
  refine ⟨rfl, rfl, ?_, ?_⟩
  · intro hexp
    have hexpMem : (k, entry) ∈ List.filter
        (fun p => decide (now - (Prod.snd p).timestamp > sweepDeadlineMs))
        s.outstandingRequests :=
      List.mem_filter.mpr ⟨hmem, by simpa [sweepDeadlineMs] using hexp⟩
    refine ⟨?_, ?_, ?_, ?_⟩
    · intro hin
      have hkeep := (List.mem_filter.mp hin).2
      simp only [Bool.not_eq_true', decide_eq_false_iff_not, sweepDeadlineMs] at hkeep
      exact hkeep hexp
    · exact mem_sweepFold hexpMem (by simp [terminateEffects, HTTP_STATUS_GATEWAY_TIMEOUT])
    · exact mem_sweepFold hexpMem (by simp [terminateEffects])
    · intro hin
      have hkeep := (List.mem_filter.mp hin).2
      have hfreed : entry.uid ∈ List.map (fun p => (Prod.snd p).uid)
          (List.filter (fun p => decide (now - (Prod.snd p).timestamp > sweepDeadlineMs))
            s.outstandingRequests) :=
        List.mem_map.mpr ⟨(k, entry), hexpMem, rfl⟩
      have hany : List.any (List.map (fun p => (Prod.snd p).uid)
          (List.filter (fun p => decide (now - (Prod.snd p).timestamp > sweepDeadlineMs))
            s.outstandingRequests)) (fun u => u == entry.uid) = true :=
        List.any_eq_true.mpr ⟨entry.uid, hfreed, by simp⟩
      rw [Bool.not_eq_true', List.any_eq_false] at hkeep
      simp only [Bool.not_eq_true] at hkeep
      rcases List.any_eq_true.mp hany with ⟨u, hu, hub⟩
      have := hkeep u hu
      rw [this] at hub
      exact Bool.false_ne_true hub
  · intro hne
    exact List.mem_filter.mpr ⟨hmem, by simpa [sweepDeadlineMs] using hne⟩

/-- Witness for C2: a sweep at t = 16000 over one record issued at t = 0
(expired) and one at t = 10000 (fresh). -/
theorem terminator_sweep_spec_witness :
    ((1, (⟨1, 7, 8, 0, none⟩ : PendingRequest)) ∉
        (terminateTimedOut 16000
          ⟨[(1, ⟨1, 7, 8, 0, none⟩), (2, ⟨2, 9, 10, 10000, none⟩)], [1, 2], [],
            true, true⟩).1.outstandingRequests ∧
      Effect.httpResponded 7 504 (wrapInFailure SERVICE_TIMEOUT) ∈
        (terminateTimedOut 16000
          ⟨[(1, ⟨1, 7, 8, 0, none⟩), (2, ⟨2, 9, 10, 10000, none⟩)], [1, 2], [],
            true, true⟩).2 ∧
      Effect.releasedId 1 ∈
        (terminateTimedOut 16000
          ⟨[(1, ⟨1, 7, 8, 0, none⟩), (2, ⟨2, 9, 10, 10000, none⟩)], [1, 2], [],
            true, true⟩).2 ∧
      (1 : Int) ∉
        (terminateTimedOut 16000
          ⟨[(1, ⟨1, 7, 8, 0, none⟩), (2, ⟨2, 9, 10, 10000, none⟩)], [1, 2], [],
            true, true⟩).1.allocated) ∧
    ((2, (⟨2, 9, 10, 10000, none⟩ : PendingRequest)) ∈
        (terminateTimedOut 16000
          ⟨[(1, ⟨1, 7, 8, 0, none⟩), (2, ⟨2, 9, 10, 10000, none⟩)], [1, 2], [],
            true, true⟩).1.outstandingRequests) :=
  ⟨(terminator_sweep_spec 16000
      ⟨[(1, ⟨1, 7, 8, 0, none⟩), (2, ⟨2, 9, 10, 10000, none⟩)], [1, 2], [], true, true⟩
      1 ⟨1, 7, 8, 0, none⟩ (by simp)).2.2.1 (by decide),
   (terminator_sweep_spec 16000
      ⟨[(1, ⟨1, 7, 8, 0, none⟩), (2, ⟨2, 9, 10, 10000, none⟩)], [1, 2], [], true, true⟩
      2 ⟨2, 9, 10, 10000, none⟩ (by simp)).2.2.2 (by decide)⟩

end GatewayMk2

namespace GatewayMk2

/-- Claim C4: once the terminator has swept a timed-out record keyed `uid`,
a later reply carrying `uid` never fires that record's completion callback:
the demultiplexer finds no matching entry, logs the unmatched-request
warning, and discards the reply with no HTTP effect and no state change. -/
theorem late_reply_after_sweep_dropped (env : ValidatorEnv) (s : GatewayState)
    (now : Int) (uid st : Int) (json : JsonValue) (entry : PendingRequest)
    (hnd : (s.outstandingRequests.map Prod.fst).Nodup)
    (hget : tableGet s.outstandingRequests uid = some entry)
    (hexp : now - entry.timestamp > 15000)
    (hres : s.resolverConfigured = true)
    (hint : List.any s.intercepts (fun i => i == uid) = false)
    (hid : numField json "msg_id" = some uid)
    (hst : numField json "status" = some st) :
    tableMem (terminateTimedOut now s).1.outstandingRequests uid = false ∧
    handleRawIncoming env (terminateTimedOut now s).1 (.decoded json) =
      ⟨(terminateTimedOut now s).1, [.logged .unmatchedRequest], .ok ()⟩ := by
  have hmemFalse : tableMem (terminateTimedOut now s).1.outstandingRequests uid = false := by
    rw [Bool.eq_false_iff]
    intro hany
    rcases List.any_eq_true.mp hany with ⟨p, hp, hpk⟩
    have hpmem := (List.mem_filter.mp hp).1
    have hkeep := (List.mem_filter.mp hp).2
    have hpk' : p.1 = uid := by simpa using hpk
    have hpPair : (uid, p.2) ∈ s.outstandingRequests := by
      have : p = (uid, p.2) := by
        cases p with
        | mk a b => simp_all
      rwa [this] at hpmem
    have hgetP := tableGet_of_mem_nodup hnd hpPair
    have hEq : p.2 = entry := by
      rw [hgetP] at hget
      exact Option.some.inj hget
    simp only [Bool.not_eq_true', decide_eq_false_iff_not, sweepDeadlineMs] at hkeep
    rw [hEq] at hkeep
    exact hkeep hexp
  have hget1 : tableGet (terminateTimedOut now s).1.outstandingRequests uid = none :=
    tableGet_none_of_not_mem hmemFalse
  have hres1 : (terminateTimedOut now s).1.resolverConfigured = true := by
    simpa [terminateTimedOut] using hres
  have hint1 : (terminateTimedOut now s).1.intercepts = s.intercepts := by
    simp [terminateTimedOut]
  refine ⟨hmemFalse, ?_⟩
  simp [handleRawIncoming, hres1, hid, hst, hint1, hint, hget1]

/-- Witness for C4: a record issued at t = 0 is swept at t = 16000; a reply
for its id 5 arriving afterwards is dropped with the warning. -/
theorem late_reply_after_sweep_dropped_witness :
    tableMem (terminateTimedOut 16000
        ⟨[(5, ⟨5, 7, 8, 0, none⟩)], [5], [], true, true⟩).1.outstandingRequests 5 = false ∧
    handleRawIncoming (fun _ _ => .accepted)
        (terminateTimedOut 16000
          ⟨[(5, ⟨5, 7, 8, 0, none⟩)], [5], [], true, true⟩).1
        (.decoded (.obj [("msg_id", .num 5), ("status", .num 0)])) =
      ⟨(terminateTimedOut 16000
          ⟨[(5, ⟨5, 7, 8, 0, none⟩)], [5], [], true, true⟩).1,
        [.logged .unmatchedRequest], .ok ()⟩ :=
  late_reply_after_sweep_dropped (fun _ _ => .accepted)
    ⟨[(5, ⟨5, 7, 8, 0, none⟩)], [5], [], true, true⟩ 16000 5 0
    (.obj [("msg_id", .num 5), ("status", .num 0)]) ⟨5, 7, 8, 0, none⟩
    (by simp) (by decide) (by decide) rfl rfl rfl rfl

end GatewayMk2

namespace GatewayMk2

/-- Counterexample to claim C5: on the direct completion path (reply matched
in the request table, callback fired) the id is never returned to the
allocator — for a matched reply with id 5 the callback fires, yet no release
effect is emitted and 5 remains in the allocated set. -/
theorem direct_completion_keeps_id_allocated :
    (handleRawIncoming (fun _ _ => .accepted)
        ⟨[(5, ⟨5, 7, 8, 100, none⟩)], [5], [], true, true⟩
        (.decoded (.obj [("msg_id", .num 5), ("status", .num 0)]))).effects =
      [.calledBack 5 ⟨5, 7, 8, 100, none⟩
        (.obj [("msg_id", .num 5), ("status", .num 0)]) 0] ∧
    (handleRawIncoming (fun _ _ => .accepted)
        ⟨[(5, ⟨5, 7, 8, 100, none⟩)], [5], [], true, true⟩
        (.decoded (.obj [("msg_id", .num 5), ("status", .num 0)]))).state.allocated =
      [5] ∧
    Effect.releasedId 5 ∉
      (handleRawIncoming (fun _ _ => .accepted)
        ⟨[(5, ⟨5, 7, 8, 100, none⟩)], [5], [], true, true⟩
        (.decoded (.obj [("msg_id", .num 5), ("status", .num 0)]))).effects := by
  refine ⟨rfl, rfl, ?_⟩
  intro h
  have h2 : Effect.releasedId 5 ∈
      [Effect.calledBack 5 ⟨5, 7, 8, 100, none⟩
        (.obj [("msg_id", .num 5), ("status", .num 0)]) 0] := h
  have h3 := List.mem_singleton.mp h2
  exact Effect.noConfusion h3

/-- Shared fact: sweeping an expired entry emits its release effect and leaves
its uid outside the allocated set. -/
theorem sweep_releases_uid {now : Int} {s : GatewayState} {k : Int}
    {entry : PendingRequest} (hmem : (k, entry) ∈ s.outstandingRequests)
    (hexp : now - entry.timestamp > 15000) :
    Effect.releasedId entry.uid ∈ (terminateTimedOut now s).2 ∧
    entry.uid ∉ (terminateTimedOut now s).1.allocated := by
  have hexpMem : (k, entry) ∈ List.filter
      (fun p => decide (now - (Prod.snd p).timestamp > sweepDeadlineMs))
      s.outstandingRequests :=
    List.mem_filter.mpr ⟨hmem, by simpa [sweepDeadlineMs] using hexp⟩
  refine ⟨mem_sweepFold hexpMem (by simp [terminateEffects]), ?_⟩
  intro hin
  have hkeep := (List.mem_filter.mp hin).2
  have hfreed : entry.uid ∈ List.map (fun p => (Prod.snd p).uid)
      (List.filter (fun p => decide (now - (Prod.snd p).timestamp > sweepDeadlineMs))
        s.outstandingRequests) :=
    List.mem_map.mpr ⟨(k, entry), hexpMem, rfl⟩
  have hany : List.any (List.map (fun p => (Prod.snd p).uid)
      (List.filter (fun p => decide (now - (Prod.snd p).timestamp > sweepDeadlineMs))
        s.outstandingRequests)) (fun u => u == entry.uid) = true :=
    List.any_eq_true.mpr ⟨entry.uid, hfreed, by simp⟩
  rw [Bool.not_eq_true', List.any_eq_false] at hkeep
  simp only [Bool.not_eq_true] at hkeep
  rcases List.any_eq_true.mp hany with ⟨u, hu, hub⟩
  have := hkeep u hu
  rw [this] at hub
  exact Bool.false_ne_true hub

/-- Claim C5, amended: the id of a pending request is released on the timeout
path and on the resolver-intercept path; on the direct completion path the
demultiplexer removes the record and fires the callback without releasing the
id to the allocator. -/
theorem id_release_paths (env : ValidatorEnv) (s : GatewayState) (now : Int)
    (k uid st : Int) (entry : PendingRequest) (json : JsonValue) :
    ((k, entry) ∈ s.outstandingRequests → now - entry.timestamp > 15000 →
      Effect.releasedId entry.uid ∈ (terminateTimedOut now s).2 ∧
      entry.uid ∉ (terminateTimedOut now s).1.allocated) ∧
    (s.resolverConfigured = true → numField json "msg_id" = some uid →
      numField json "status" = some st →
      List.any s.intercepts (fun i => i == uid) = true →
      Effect.releasedId uid ∈ (handleRawIncoming env s (.decoded json)).effects ∧
      uid ∉ (handleRawIncoming env s (.decoded json)).state.allocated) ∧
    (s.resolverConfigured = true → numField json "msg_id" = some uid →
      numField json "status" = some st →
      List.any s.intercepts (fun i => i == uid) = false →
      tableGet s.outstandingRequests uid = some entry →
      (handleRawIncoming env s (.decoded json)).state.allocated = s.allocated ∧
      (∀ i : Int, Effect.releasedId i ∉
        (handleRawIncoming env s (.decoded json)).effects)) := by
  refine ⟨fun hmem hexp => sweep_releases_uid hmem hexp, ?_, ?_⟩
  · intro hres hid hst hint
    constructor
    · simp [handleRawIncoming, hres, hid, hst, hint]
    · intro hin
      simp [handleRawIncoming, hres, hid, hst, hint] at hin
  · intro hres hid hst hint hget
    cases hv : entry.additionalValidator with
    | none =>
      refine ⟨by simp [handleRawIncoming, hres, hid, hst, hint, hget, hv], ?_⟩
      intro i hi
      simp [handleRawIncoming, hres, hid, hst, hint, hget, hv] at hi
    | some v =>
      cases henv : env v json with
      | accepted =>
        refine ⟨by simp [handleRawIncoming, hres, hid, hst, hint, hget, hv, henv], ?_⟩
        intro i hi
        simp [handleRawIncoming, hres, hid, hst, hint, hget, hv, henv] at hi
      | rejected =>
        refine ⟨by simp [handleRawIncoming, hres, hid, hst, hint, hget, hv, henv], ?_⟩
        intro i hi
        simp [handleRawIncoming, hres, hid, hst, hint, hget, hv, henv] at hi
      | threw =>
        refine ⟨by simp [handleRawIncoming, hres, hid, hst, hint, hget, hv, henv], ?_⟩
        intro i hi
        simp [handleRawIncoming, hres, hid, hst, hint, hget, hv, henv] at hi

/-- Witness for the amended C5: concrete timeout, intercept and direct
completion runs. -/
theorem id_release_paths_witness :
    (Effect.releasedId 1 ∈
        (terminateTimedOut 16000 ⟨[(1, ⟨1, 7, 8, 0, none⟩)], [1], [], true, true⟩).2 ∧
      (1 : Int) ∉
        (terminateTimedOut 16000
          ⟨[(1, ⟨1, 7, 8, 0, none⟩)], [1], [], true, true⟩).1.allocated) ∧
    (Effect.releasedId 9 ∈
        (handleRawIncoming (fun _ _ => .accepted) ⟨[], [9], [9], true, true⟩
          (.decoded (.obj [("msg_id", .num 9), ("status", .num 0)]))).effects ∧
      (9 : Int) ∉
        (handleRawIncoming (fun _ _ => .accepted) ⟨[], [9], [9], true, true⟩
          (.decoded (.obj [("msg_id", .num 9), ("status", .num 0)]))).state.allocated) ∧
    ((handleRawIncoming (fun _ _ => .accepted)
        ⟨[(5, ⟨5, 7, 8, 100, none⟩)], [5], [], true, true⟩
        (.decoded (.obj [("msg_id", .num 5), ("status", .num 0)]))).state.allocated =
      [5] ∧
      (∀ i : Int, Effect.releasedId i ∉
        (handleRawIncoming (fun _ _ => .accepted)
          ⟨[(5, ⟨5, 7, 8, 100, none⟩)], [5], [], true, true⟩
          (.decoded (.obj [("msg_id", .num 5), ("status", .num 0)]))).effects)) :=
  ⟨(id_release_paths (fun _ _ => .accepted)
      ⟨[(1, ⟨1, 7, 8, 0, none⟩)], [1], [], true, true⟩ 16000 1 9 0 ⟨1, 7, 8, 0, none⟩
      (.obj [("msg_id", .num 9), ("status", .num 0)])).1 (by simp) (by decide),
   (id_release_paths (fun _ _ => .accepted) ⟨[], [9], [9], true, true⟩ 16000 1 9 0
      ⟨1, 7, 8, 0, none⟩ (.obj [("msg_id", .num 9), ("status", .num 0)])).2.1
      rfl rfl rfl (by decide),
   (id_release_paths (fun _ _ => .accepted)
      ⟨[(5, ⟨5, 7, 8, 100, none⟩)], [5], [], true, true⟩ 16000 1 5 0 ⟨5, 7, 8, 100, none⟩
      (.obj [("msg_id", .num 5), ("status", .num 0)])).2.2
      rfl rfl rfl (by decide) (by decide)⟩

end GatewayMk2

namespace GatewayMk2

/-- Counterexample to claim C6: a payload whose content fails to decode as
JSON is not caught — the `JSON.parse` exception escapes the configured consume
handler. -/
theorem undecodable_frame_throws :
    (handleRawIncoming (fun _ _ => .accepted) ⟨[], [], [], true, true⟩
      .undecodable).result = .error .jsonSyntaxError := rfl

/-- A value that is not a JSON object has no numeric fields. -/
theorem numField_of_not_obj {j : JsonValue}
    (h : ∀ fields, j ≠ JsonValue.obj fields) (k : String) :
    numField j k = none := by
  cases j with
  | obj fields => exact absurd rfl (h fields)
  | null => rfl
  | bool b => rfl
  | num n => rfl
  | str s => rfl
  | arr elems => rfl

/-- Claim C6, amended: on a configured gateway every frame whose content
decodes (to any JSON value, object or not) is handled without an exception —
a non-object value is dropped with the missing-id warning — and a `null`
delivery is ignored with a warning; but a frame whose content fails JSON
decoding propagates the parse exception out of the consume handler. -/
theorem reply_handler_exception_behaviour (env : ValidatorEnv) (s : GatewayState)
    (json : JsonValue) (hres : s.resolverConfigured = true) :
    ((handleRawIncoming env s (.decoded json)).result = .ok ()) ∧
    ((handleRawIncoming env s .nullMsg).result = .ok () ∧
      (handleRawIncoming env s .nullMsg).effects = [.logged .nullMessage]) ∧
    ((∀ fields, json ≠ JsonValue.obj fields) →
      (handleRawIncoming env s (.decoded json)).effects = [.logged .missingId]) ∧
    ((handleRawIncoming env s .undecodable).result = .error .jsonSyntaxError) := by
  refine ⟨?_, ⟨?_, ?_⟩, ?_, ?_⟩
  · cases hm : numField json "msg_id" with
    | none => simp [handleRawIncoming, hres, hm]
    | some msgId =>
      cases hs : numField json "status" with
      | none => simp [handleRawIncoming, hres, hm, hs]
      | some st =>
        by_cases hint : List.any s.intercepts (fun i => i == msgId) = true
        · simp [handleRawIncoming, hres, hm, hs, hint]
        · rw [Bool.not_eq_true] at hint
          cases hg : tableGet s.outstandingRequests msgId with
          | none => simp [handleRawIncoming, hres, hm, hs, hint, hg]
          | some request =>
            cases hv : request.additionalValidator with
            | none => simp [handleRawIncoming, hres, hm, hs, hint, hg, hv]
            | some v =>
              cases henv : env v json <;>
                simp [handleRawIncoming, hres, hm, hs, hint, hg, hv, henv]
  · simp [handleRawIncoming, hres]
  · simp [handleRawIncoming, hres]
  · intro hobj
    have hm := numField_of_not_obj hobj "msg_id"
    simp [handleRawIncoming, hres, hm]
  · simp [handleRawIncoming, hres]

/-- Witness for the amended C6 on a concrete configured state and the
non-object payload `3`. -/
theorem reply_handler_exception_behaviour_witness :
    ((handleRawIncoming (fun _ _ => .accepted) ⟨[], [], [], true, true⟩
        (.decoded (.num 3))).result = .ok ()) ∧
    ((handleRawIncoming (fun _ _ => .accepted) ⟨[], [], [], true, true⟩
        .nullMsg).result = .ok () ∧
      (handleRawIncoming (fun _ _ => .accepted) ⟨[], [], [], true, true⟩
        .nullMsg).effects = [.logged .nullMessage]) ∧
    ((handleRawIncoming (fun _ _ => .accepted) ⟨[], [], [], true, true⟩
        (.decoded (.num 3))).effects = [.logged .missingId]) ∧
    ((handleRawIncoming (fun _ _ => .accepted) ⟨[], [], [], true, true⟩
        .undecodable).result = .error .jsonSyntaxError) :=
  ⟨(reply_handler_exception_behaviour (fun _ _ => .accepted) ⟨[], [], [], true, true⟩
      (.num 3) rfl).1,
   (reply_handler_exception_behaviour (fun _ _ => .accepted) ⟨[], [], [], true, true⟩
      (.num 3) rfl).2.1,
   (reply_handler_exception_behaviour (fun _ _ => .accepted) ⟨[], [], [], true, true⟩
      (.num 3) rfl).2.2.1 (fun _ h => JsonValue.noConfusion h),
   (reply_handler_exception_behaviour (fun _ _ => .accepted) ⟨[], [], [], true, true⟩
      (.num 3) rfl).2.2.2⟩

/-- Claim C7: when a matched reply's record carries a validator, acceptance
fires the completion callback with the record and the reply status; rejection
and a thrown validator each log the event, fire no callback and write no
substitute HTTP response. -/
theorem validator_gate_behaviour (env : ValidatorEnv) (s : GatewayState)
    (uid st : Int) (json : JsonValue) (entry : PendingRequest) (v : Nat)
    (hres : s.resolverConfigured = true)
    (hid : numField json "msg_id" = some uid)
    (hst : numField json "status" = some st)
    (hint : List.any s.intercepts (fun i => i == uid) = false)
    (hget : tableGet s.outstandingRequests uid = some entry)
    (hv : entry.additionalValidator = some v) :
    (env v json = .accepted →
      (handleRawIncoming env s (.decoded json)).effects =
        [.calledBack uid entry json st]) ∧
    (env v json = .rejected →
      (handleRawIncoming env s (.decoded json)).effects =
        [.logged .validatorRejected]) ∧
    (env v json = .threw →
      (handleRawIncoming env s (.decoded json)).effects =
        [.logged .validatorErrored]) := by
  refine ⟨?_, ?_, ?_⟩ <;> intro henv <;>
    simp [handleRawIncoming, hres, hid, hst, hint, hget, hv, henv]

/-- Witness for C7: one concrete matched reply under an accepting, a
rejecting and a throwing validator. -/
theorem validator_gate_behaviour_witness :
    ((handleRawIncoming (fun _ _ => .accepted)
        ⟨[(5, ⟨5, 7, 8, 100, some 3⟩)], [5], [], true, true⟩
        (.decoded (.obj [("msg_id", .num 5), ("status", .num 0)]))).effects =
      [.calledBack 5 ⟨5, 7, 8, 100, some 3⟩
        (.obj [("msg_id", .num 5), ("status", .num 0)]) 0]) ∧
    ((handleRawIncoming (fun _ _ => .rejected)
        ⟨[(5, ⟨5, 7, 8, 100, some 3⟩)], [5], [], true, true⟩
        (.decoded (.obj [("msg_id", .num 5), ("status", .num 0)]))).effects =
      [.logged .validatorRejected]) ∧
    ((handleRawIncoming (fun _ _ => .threw)
        ⟨[(5, ⟨5, 7, 8, 100, some 3⟩)], [5], [], true, true⟩
        (.decoded (.obj [("msg_id", .num 5), ("status", .num 0)]))).effects =
      [.logged .validatorErrored]) :=
  ⟨(validator_gate_behaviour (fun _ _ => .accepted)
      ⟨[(5, ⟨5, 7, 8, 100, some 3⟩)], [5], [], true, true⟩ 5 0
      (.obj [("msg_id", .num 5), ("status", .num 0)]) ⟨5, 7, 8, 100, some 3⟩ 3
      rfl rfl rfl (by decide) (by decide) rfl).1 rfl,
   (validator_gate_behaviour (fun _ _ => .rejected)
      ⟨[(5, ⟨5, 7, 8, 100, some 3⟩)], [5], [], true, true⟩ 5 0
      (.obj [("msg_id", .num 5), ("status", .num 0)]) ⟨5, 7, 8, 100, some 3⟩ 3
      rfl rfl rfl (by decide) (by decide) rfl).2.1 rfl,
   (validator_gate_behaviour (fun _ _ => .threw)
      ⟨[(5, ⟨5, 7, 8, 100, some 3⟩)], [5], [], true, true⟩ 5 0
      (.obj [("msg_id", .num 5), ("status", .num 0)]) ⟨5, 7, 8, 100, some 3⟩ 3
      rfl rfl rfl (by decide) (by decide) rfl).2.2 rfl⟩

end GatewayMk2

namespace GatewayMk2

/-- Counterexample to claim C8: `sendRequest` with a msg id already present
does not fail — it silently replaces the existing pending record via
`Map.set`: the call returns normally and the old record is gone. -/
theorem duplicate_sendRequest_silently_replaces :
    (sendRequest ⟨[(5, ⟨5, 7, 8, 100, none⟩)], [5], [], true, true⟩
      "user.details.get" ⟨5, []⟩ 9 10 none 200).result = .ok true ∧
    tableGet (sendRequest ⟨[(5, ⟨5, 7, 8, 100, none⟩)], [5], [], true, true⟩
      "user.details.get" ⟨5, []⟩ 9 10 none 200).state.outstandingRequests 5 =
      some ⟨5, 9, 10, 200, none⟩ ∧
    (5, (⟨5, 7, 8, 100, none⟩ : PendingRequest)) ∉
      (sendRequest ⟨[(5, ⟨5, 7, 8, 100, none⟩)], [5], [], true, true⟩
        "user.details.get" ⟨5, []⟩ 9 10 none 200).state.outstandingRequests :=
  ⟨rfl, rfl, by decide⟩

theorem tableGet_set_self (t : RequestTable) (k : Int) (v : PendingRequest) :
    tableGet (tableSet t k v) k = some v := by
  simp [tableGet, tableSet, List.find?]

theorem nodup_tableSet {t : RequestTable} (k : Int) (v : PendingRequest)
    (hnd : (t.map Prod.fst).Nodup) : (((tableSet t k v).map Prod.fst)).Nodup := by
  unfold tableSet tableDelete
  rw [List.map_cons, List.nodup_cons]
  constructor
  · intro hk
    rcases List.mem_map.mp hk with ⟨p, hp, hpk⟩
    have hkeep := (List.mem_filter.mp hp).2
    rw [hpk] at hkeep
    simp at hkeep
  · exact hnd.sublist (List.Sublist.map Prod.fst (List.filter_sublist t))

/-- Claim C8, amended: inserting into the request table never fails on a
duplicate id — a second `sendRequest` with the same msg id silently replaces
the existing record (`Map.set` semantics); the table itself still never holds
two records with the same id, uniqueness of live ids being the allocator's
responsibility. -/
theorem sendRequest_replaces_duplicate (s : GatewayState) (key : String)
    (message : RequestMessage) (response callback : Nat) (validator : Option Nat)
    (now : Int) (h : s.sendChannelConfigured = true) :
    (sendRequest s key message response callback validator now).result = .ok true ∧
    tableGet (sendRequest s key message response callback validator
        now).state.outstandingRequests message.msg_id =
      some { uid := message.msg_id, response := response, callback := callback,
             timestamp := now, additionalValidator := validator } ∧
    ((s.outstandingRequests.map Prod.fst).Nodup →
      (((sendRequest s key message response callback validator
          now).state.outstandingRequests).map Prod.fst).Nodup) := by
  refine ⟨by simp [sendRequest, publish, h], ?_, ?_⟩
  · have hstate : (sendRequest s key message response callback validator
        now).state.outstandingRequests =
        tableSet s.outstandingRequests message.msg_id
          { uid := message.msg_id, response := response, callback := callback,
            timestamp := now, additionalValidator := validator } := by
      simp [sendRequest, publish, h]
    rw [hstate]
    exact tableGet_set_self _ _ _
  · intro hnd
    have hstate : (sendRequest s key message response callback validator
        now).state.outstandingRequests =
        tableSet s.outstandingRequests message.msg_id
          { uid := message.msg_id, response := response, callback := callback,
            timestamp := now, additionalValidator := validator } := by
      simp [sendRequest, publish, h]
    rw [hstate]
    exact nodup_tableSet _ _ hnd

/-- Witness for the amended C8: the duplicate id 5 is overwritten in a
concrete configured state. -/
theorem sendRequest_replaces_duplicate_witness :
    (sendRequest ⟨[(5, ⟨5, 7, 8, 100, none⟩)], [5], [], true, true⟩
      "equipment.details.get" ⟨5, []⟩ 9 10 none 200).result = .ok true ∧
    tableGet (sendRequest ⟨[(5, ⟨5, 7, 8, 100, none⟩)], [5], [], true, true⟩
      "equipment.details.get" ⟨5, []⟩ 9 10 none 200).state.outstandingRequests 5 =
      some { uid := 5, response := 9, callback := 10,
             timestamp := 200, additionalValidator := none } ∧
    (((sendRequest ⟨[(5, ⟨5, 7, 8, 100, none⟩)], [5], [], true, true⟩
      "equipment.details.get" ⟨5, []⟩ 9 10 none
      200).state.outstandingRequests).map Prod.fst).Nodup :=
  ⟨(sendRequest_replaces_duplicate ⟨[(5, ⟨5, 7, 8, 100, none⟩)], [5], [], true, true⟩
      "equipment.details.get" ⟨5, []⟩ 9 10 none 200 rfl).1,
   (sendRequest_replaces_duplicate ⟨[(5, ⟨5, 7, 8, 100, none⟩)], [5], [], true, true⟩
      "equipment.details.get" ⟨5, []⟩ 9 10 none 200 rfl).2.1,
   (sendRequest_replaces_duplicate ⟨[(5, ⟨5, 7, 8, 100, none⟩)], [5], [], true, true⟩
      "equipment.details.get" ⟨5, []⟩ 9 10 none 200 rfl).2.2 (by decide)⟩

end GatewayMk2

namespace Attachments

open GatewayMk2

/-- Claim C9, evaluated at the failing input `GET /user/abc`: the equipment
GET-one handler includes the path id "abc" in the published message, but the
user GET-one handler publishes a message with no id field at all, so the
microservice cannot identify the single user being fetched. -/
theorem getUserHandler_omits_path_id :
    getEquipmentHandler ⟨[("id", "abc")], ⟨"u1"⟩⟩ 1 =
      [.sent "equipment.details.get"
        ⟨1, [("msg_intention", .str "READ"), ("status", .num 0),
             ("userID", .str "u1"), ("id", .str "abc")]⟩] ∧
    getField [("msg_intention", JsonValue.str "READ"), ("status", JsonValue.num 0),
      ("userID", JsonValue.str "u1"), ("id", JsonValue.str "abc")] "id" =
      some (JsonValue.str "abc") ∧
    getUserHandler ⟨[("id", "abc")], ⟨"u1"⟩⟩ 2 =
      [.sent "user.details.get"
        ⟨2, [("msg_intention", .str "READ"), ("status", .num 0),
             ("userID", .str "u1")]⟩] ∧
    getField [("msg_intention", JsonValue.str "READ"), ("status", JsonValue.num 0),
      ("userID", JsonValue.str "u1")] "id" = none :=
  ⟨rfl, rfl, rfl, rfl⟩

end Attachments
